import Mathlib

/-!
Verification of the `HttpParser` serializer from `src/network/http/src/lib.rs`
(crate `WordSentences/network/http`).

The Rust code turns an already-parsed HTTP `Request<T>` or `Response<T>`
(types of the external `http` crate) into its wire-format text:

* `parse_version` maps the message's `Version` through a fixed table to
  `Some("HTTP/0.9" | "HTTP/1.0" | "HTTP/1.1" | "HTTP/2" | "HTTP/3")`;
  the catch-all `_ => None` arm is unreachable because the external
  `Version` type has exactly those five values.
* `parse_header` renders each header as `name:value` with the value bytes
  decoded by `String::from_utf8_lossy`, and joins the lines with `"\r\n"`.
* `parse_request` produces `"{method} {uri} {version}\r\n{header}\r\n{body}"`,
  `parse_response` produces `"{version} {status_code}\r\n{header}\r\n{body}"`,
  and `parse` dispatches on the variant.

Strings are modelled as lists of Unicode code points (`Str`), header values
as lists of bytes (`Bytes`), so that the lossy UTF-8 decoding of header
values can be stated at the byte level exactly as Rust's
`String::from_utf8_lossy` behaves (WHATWG maximal-subpart replacement with
U+FFFD, the policy implemented by `core::str::run_utf8_validation`).
-/

set_option maxRecDepth 8000

/-- Unicode code points of a text value (a Rust `String` / `Display` output). -/
abbrev Str := List Nat

/-- Raw bytes (a Rust `&[u8]`, here `HeaderValue::as_bytes`). -/
abbrev Bytes := List Nat

/-- Code points of a Lean string literal, used to write concrete texts. -/
def strLit (s : String) : Str := s.data.map Char.toNat

namespace http

/-- The five values of the external `http` crate's `Version` type
(`HTTP_09`, `HTTP_10`, `HTTP_11`, `HTTP_2`, `HTTP_3`). -/
inductive Version where
  | HTTP_09
  | HTTP_10
  | HTTP_11
  | HTTP_2
  | HTTP_3
deriving DecidableEq, Repr

/-- An already-parsed HTTP request (the fields of `http::Request` that the
serializer reads: `method()`, `uri()`, `version()`, `headers()`, `body()`).
Header names and the other `Display`ed fields are code-point texts; header
values are raw bytes. -/
structure Request where
  method : Str
  uri : Str
  version : Version
  headers : List (Str × Bytes)
  body : Str
deriving DecidableEq, Repr

/-- An already-parsed HTTP response (the fields of `http::Response` that the
serializer reads: `version()`, `status()`, `headers()`, `body()`).
The status is the bare integer code: the external `http::Response` carries no
per-message reason phrase. -/
structure Response where
  version : Version
  status : Nat
  headers : List (Str × Bytes)
  body : Str
deriving DecidableEq, Repr

end http

/-- `enum HttpParser<'a, T> { Request(&'a Request<T>), Response(&'a Response<T>) }`. -/
inductive HttpParser where
  | Request : http.Request → HttpParser
  | Response : http.Response → HttpParser
deriving DecidableEq, Repr

/-- `HttpParser::from_request`. -/
def HttpParser.from_request (r : http.Request) : HttpParser := .Request r

/-- `HttpParser::from_response`. -/
def HttpParser.from_response (r : http.Response) : HttpParser := .Response r

/-- The version match at the start of `parse_version` (lines 19–26). -/
def HttpParser.version : HttpParser → http.Version
  | .Request r => r.version
  | .Response r => r.version

/-- The header list read in `parse_header` (lines 37–44). -/
def HttpParser.headers : HttpParser → List (Str × Bytes)
  | .Request r => r.headers
  | .Response r => r.headers

/-! ### Lossy UTF-8 decoding (`String::from_utf8_lossy`)

Rust replaces every maximal subpart of an ill-formed subsequence with one
U+FFFD, per the WHATWG encoding standard: an invalid lead byte (`0x80`–`0xC1`,
`0xF5`–`0xFF`) is replaced alone; a well-formed prefix of a longer sequence
that is cut short by a wrong byte is replaced as a whole and decoding resumes
at the offending byte; a sequence truncated by the end of input is replaced as
a whole. The second-byte ranges below are exactly those of
`core::str::run_utf8_validation`: they exclude overlong forms, surrogates and
code points above U+10FFFF. -/

/-- Is `b` a UTF-8 continuation byte (`0x80`–`0xBF`)? -/
def isCont (b : Nat) : Bool := decide (0x80 ≤ b ∧ b ≤ 0xBF)

/-- Allowed second byte of a multi-byte sequence with lead byte `b1`
(the special ranges rule out overlong encodings, surrogates and values
above U+10FFFF, as in `core::str::run_utf8_validation`). -/
def cont2ok (b1 b2 : Nat) : Bool :=
  if b1 = 0xE0 then decide (0xA0 ≤ b2 ∧ b2 ≤ 0xBF)
  else if b1 = 0xED then decide (0x80 ≤ b2 ∧ b2 ≤ 0x9F)
  else if b1 = 0xF0 then decide (0x90 ≤ b2 ∧ b2 ≤ 0xBF)
  else if b1 = 0xF4 then decide (0x80 ≤ b2 ∧ b2 ≤ 0x8F)
  else isCont b2

/-- `String::from_utf8_lossy`, at the level of code points: decode valid
UTF-8 sequences, emit U+FFFD (= 65533) for each maximal invalid subpart.
When a multi-byte sequence is cut short by a non-continuation byte, decoding
resumes at that byte: the recursive calls on `rest`, `rest2`, `rest3` in the
mismatch branches restart exactly at the offending byte. -/
def utf8Lossy : Bytes → Str
  | [] => []
  | b1 :: rest =>
    if b1 < 0x80 then b1 :: utf8Lossy rest
    else if b1 < 0xC2 then 0xFFFD :: utf8Lossy rest
    else if b1 < 0xE0 then
      match rest with
      | [] => [0xFFFD]
      | b2 :: rest2 =>
        if isCont b2 then ((b1 - 0xC0) * 64 + (b2 - 0x80)) :: utf8Lossy rest2
        else 0xFFFD :: utf8Lossy (b2 :: rest2)
    else if b1 < 0xF0 then
      match rest with
      | [] => [0xFFFD]
      | b2 :: rest2 =>
        if cont2ok b1 b2 then
          match rest2 with
          | [] => [0xFFFD]
          | b3 :: rest3 =>
            if isCont b3 then
              ((b1 - 0xE0) * 4096 + (b2 - 0x80) * 64 + (b3 - 0x80)) :: utf8Lossy rest3
            else 0xFFFD :: utf8Lossy (b3 :: rest3)
        else 0xFFFD :: utf8Lossy (b2 :: rest2)
    else if b1 < 0xF5 then
      match rest with
      | [] => [0xFFFD]
      | b2 :: rest2 =>
        if cont2ok b1 b2 then
          match rest2 with
          | [] => [0xFFFD]
          | b3 :: rest3 =>
            if isCont b3 then
              match rest3 with
              | [] => [0xFFFD]
              | b4 :: rest4 =>
                if isCont b4 then
                  ((b1 - 0xF0) * 262144 + (b2 - 0x80) * 4096 + (b3 - 0x80) * 64 + (b4 - 0x80))
                    :: utf8Lossy rest4
                else 0xFFFD :: utf8Lossy (b4 :: rest4)
            else 0xFFFD :: utf8Lossy (b3 :: rest3)
        else 0xFFFD :: utf8Lossy (b2 :: rest2)
    else 0xFFFD :: utf8Lossy rest

/-! ### The serializer -/

/-- `"\r\n"`. -/
def crlf : Str := [13, 10]

/-- Rust's `[String]::join(sep)`: the pieces with `sep` between consecutive
pieces (nothing before the first or after the last). -/
def joinSep (sep : Str) : List Str → Str
  | [] => []
  | [x] => x
  | x :: y :: xs => x ++ sep ++ joinSep sep (y :: xs)

/-- One rendered header line, `format!("{key}:{value}")` with the value bytes
decoded by `String::from_utf8_lossy` (lines 46–49); `58` is `:`. -/
def headerLine (kv : Str × Bytes) : Str := kv.1 ++ [58] ++ utf8Lossy kv.2

/-- `HttpParser::parse_version` (lines 18–35). Each of the five values of
`Version` is mapped to its textual name; the source's trailing `_ => None`
arm is unreachable because `Version` has no further values. -/
def HttpParser.parse_version (p : HttpParser) : Option Str :=
  match p.version with
  | .HTTP_09 => some (strLit "HTTP/0.9")
  | .HTTP_10 => some (strLit "HTTP/1.0")
  | .HTTP_11 => some (strLit "HTTP/1.1")
  | .HTTP_2 => some (strLit "HTTP/2")
  | .HTTP_3 => some (strLit "HTTP/3")

/-- `HttpParser::parse_header` (lines 36–52). -/
def HttpParser.parse_header (p : HttpParser) : Str :=
  joinSep crlf (p.headers.map headerLine)

/-- Modelled from the spec: the textual rendering of the external
`http::StatusCode` type (not part of this repository). The spec gives the
status as an integer carrying its canonical reason phrase — "status=200
(\"OK\")" rendered as `200 OK` — so the display is the decimal code, a space,
and the canonical reason from the fixed IANA table (statuses outside the
table render a fixed placeholder, never a caller-chosen phrase). -/
def canonicalReason (code : Nat) : Option String :=
  if code = 100 then some "Continue"
  else if code = 101 then some "Switching Protocols"
  else if code = 200 then some "OK"
  else if code = 201 then some "Created"
  else if code = 204 then some "No Content"
  else if code = 301 then some "Moved Permanently"
  else if code = 302 then some "Found"
  else if code = 304 then some "Not Modified"
  else if code = 400 then some "Bad Request"
  else if code = 401 then some "Unauthorized"
  else if code = 403 then some "Forbidden"
  else if code = 404 then some "Not Found"
  else if code = 500 then some "Internal Server Error"
  else if code = 501 then some "Not Implemented"
  else if code = 502 then some "Bad Gateway"
  else if code = 503 then some "Service Unavailable"
  else none

/-- Modelled from the spec: `Display` of the external `http::StatusCode`
(`"{code} {canonical reason}"`, e.g. `200 OK`). -/
def statusDisplay (code : Nat) : Str :=
  strLit (toString code) ++ [32] ++ strLit ((canonicalReason code).getD "<unknown status code>")

/-- `HttpParser::parse_request` (lines 53–64):
`format!("{method} {uri} {version}\r\n{header}\r\n{body}")`; `32` is the
space. On a `Response` the `if let` falls through to `None`. -/
def HttpParser.parse_request (p : HttpParser) : Option Str :=
  match p with
  | .Request r =>
    match p.parse_version with
    | some version =>
      some (r.method ++ [32] ++ r.uri ++ [32] ++ version ++ crlf
        ++ p.parse_header ++ crlf ++ r.body)
    | none => none
  | .Response _ => none

/-- `HttpParser::parse_response` (lines 65–75):
`format!("{version} {status_code}\r\n{header}\r\n{body}")`, the status code
rendered by its `Display`. On a `Request` the `if let` falls through. -/
def HttpParser.parse_response (p : HttpParser) : Option Str :=
  match p with
  | .Response r =>
    match p.parse_version with
    | some version =>
      some (version ++ [32] ++ statusDisplay r.status ++ crlf
        ++ p.parse_header ++ crlf ++ r.body)
    | none => none
  | .Request _ => none

/-- `HttpParser::parse` (lines 77–84). -/
def HttpParser.parse (p : HttpParser) : Option Str :=
  match p with
  | .Request _ => p.parse_request
  | .Response _ => p.parse_response

example : strLit "A:" = [65, 58] := by decide

example :
    HttpParser.parse (.Request ⟨strLit "GET", strLit "http://localhost/", .HTTP_11, [], []⟩)
      = some (strLit "GET http://localhost/ HTTP/1.1\r\n\r\n") := by decide

example :
    HttpParser.parse (.Response ⟨.HTTP_11, 200, [], strLit "<h1>hello</h1>"⟩)
      = some (strLit "HTTP/1.1 200 OK\r\n\r\n<h1>hello</h1>") := by decide

example : utf8Lossy [0x68, 0xFF, 0x65] = [0x68, 0xFFFD, 0x65] := by decide

example : utf8Lossy [0xE0, 0xA0] = [0xFFFD] := by decide

example : utf8Lossy [0xE0, 0x41] = [0xFFFD, 0x41] := by decide

example : utf8Lossy [0xE2, 0x82, 0xAC] = [0x20AC] := by decide

example : utf8Lossy [0xF0, 0x9F, 0x92, 0x96] = [0x1F496] := by decide

example : utf8Lossy [0x80, 0x80] = [0xFFFD, 0xFFFD] := by decide

/-! ### UTF-8 well-formedness: the encoder side

`utf8EncodeChar` is the standard UTF-8 encoding of a scalar value; a byte
sequence is well-formed UTF-8 exactly when it is `utf8Encode cs` for a list
`cs` of Unicode scalar values (`ValidCodepoint`). These definitions are the
yardstick against which the lossy decoder is judged. -/

/-- A Unicode scalar value: below U+110000 and not a surrogate. -/
def ValidCodepoint (c : Nat) : Prop := c < 0x110000 ∧ (c < 0xD800 ∨ 0xE000 ≤ c)

instance (c : Nat) : Decidable (ValidCodepoint c) := by
  unfold ValidCodepoint; infer_instance

/-- Standard UTF-8 encoding of one scalar value. -/
def utf8EncodeChar (c : Nat) : Bytes :=
  if c < 0x80 then [c]
  else if c < 0x800 then [0xC0 + c / 64, 0x80 + c % 64]
  else if c < 0x10000 then [0xE0 + c / 4096, 0x80 + c / 64 % 64, 0x80 + c % 64]
  else [0xF0 + c / 262144, 0x80 + c / 4096 % 64, 0x80 + c / 64 % 64, 0x80 + c % 64]

/-- Standard UTF-8 encoding of a sequence of scalar values. -/
def utf8Encode (cs : Str) : Bytes := (cs.map utf8EncodeChar).flatten

/-- Every code point of `cs` is a Unicode scalar value. -/
def AllValid (cs : Str) : Prop := ∀ c ∈ cs, ValidCodepoint c

instance (cs : Str) : Decidable (AllValid cs) := by
  unfold AllValid; infer_instance

/-! ### Step lemmas for the decoder -/

theorem utf8Lossy_ascii (b : Nat) (bs : Bytes) (h : b < 0x80) :
    utf8Lossy (b :: bs) = b :: utf8Lossy bs := by
  rw [utf8Lossy.eq_def]
  simp [h]

theorem utf8Lossy_two (b1 b2 : Nat) (bs : Bytes) (h1 : 0xC2 ≤ b1) (h2 : b1 < 0xE0)
    (hc : isCont b2 = true) :
    utf8Lossy (b1 :: b2 :: bs) = ((b1 - 0xC0) * 64 + (b2 - 0x80)) :: utf8Lossy bs := by
  have h80 : ¬ b1 < 0x80 := by omega
  have hC2 : ¬ b1 < 0xC2 := by omega
  rw [utf8Lossy.eq_def]
  simp [h80, hC2, h2, hc]

theorem utf8Lossy_three (b1 b2 b3 : Nat) (bs : Bytes) (h1 : 0xE0 ≤ b1) (h2 : b1 < 0xF0)
    (hc2 : cont2ok b1 b2 = true) (hc3 : isCont b3 = true) :
    utf8Lossy (b1 :: b2 :: b3 :: bs)
      = ((b1 - 0xE0) * 4096 + (b2 - 0x80) * 64 + (b3 - 0x80)) :: utf8Lossy bs := by
  have h80 : ¬ b1 < 0x80 := by omega
  have hC2 : ¬ b1 < 0xC2 := by omega
  have hE0 : ¬ b1 < 0xE0 := by omega
  rw [utf8Lossy.eq_def]
  simp [h80, hC2, hE0, h2, hc2, hc3]

theorem utf8Lossy_four (b1 b2 b3 b4 : Nat) (bs : Bytes) (h1 : 0xF0 ≤ b1) (h2 : b1 < 0xF5)
    (hc2 : cont2ok b1 b2 = true) (hc3 : isCont b3 = true) (hc4 : isCont b4 = true) :
    utf8Lossy (b1 :: b2 :: b3 :: b4 :: bs)
      = ((b1 - 0xF0) * 262144 + (b2 - 0x80) * 4096 + (b3 - 0x80) * 64 + (b4 - 0x80))
          :: utf8Lossy bs := by
  have h80 : ¬ b1 < 0x80 := by omega
  have hC2 : ¬ b1 < 0xC2 := by omega
  have hE0 : ¬ b1 < 0xE0 := by omega
  have hF0 : ¬ b1 < 0xF0 := by omega
  rw [utf8Lossy.eq_def]
  simp [h80, hC2, hE0, hF0, h2, hc2, hc3, hc4]

theorem isCont_iff (b : Nat) : isCont b = true ↔ 0x80 ≤ b ∧ b ≤ 0xBF := by
  simp [isCont]

theorem cont2ok_iff (b1 b2 : Nat) : cont2ok b1 b2 = true ↔
    ((b1 = 0xE0 → 0xA0 ≤ b2 ∧ b2 ≤ 0xBF) ∧
     (b1 = 0xED → 0x80 ≤ b2 ∧ b2 ≤ 0x9F) ∧
     (b1 = 0xF0 → 0x90 ≤ b2 ∧ b2 ≤ 0xBF) ∧
     (b1 = 0xF4 → 0x80 ≤ b2 ∧ b2 ≤ 0x8F) ∧
     (b1 ≠ 0xE0 → b1 ≠ 0xED → b1 ≠ 0xF0 → b1 ≠ 0xF4 → 0x80 ≤ b2 ∧ b2 ≤ 0xBF)) := by
  unfold cont2ok isCont
  split_ifs <;> simp only [decide_eq_true_eq] <;> omega

theorem utf8Encode_nil : utf8Encode [] = [] := rfl

theorem utf8Encode_cons (c : Nat) (cs : Str) :
    utf8Encode (c :: cs) = utf8EncodeChar c ++ utf8Encode cs := by
  simp [utf8Encode]

/-- Decoding a validly encoded scalar value at the head of the input yields
that value and continues with the remaining bytes. -/
theorem utf8Lossy_encodeChar (c : Nat) (h : ValidCodepoint c) (bs : Bytes) :
    utf8Lossy (utf8EncodeChar c ++ bs) = c :: utf8Lossy bs := by
  obtain ⟨hv, hs⟩ := h
  by_cases h1 : c < 0x80
  · have he : utf8EncodeChar c = [c] := by simp [utf8EncodeChar, h1]
    rw [he, List.singleton_append, utf8Lossy_ascii c bs h1]
  · by_cases h2 : c < 0x800
    · have he : utf8EncodeChar c = [0xC0 + c / 64, 0x80 + c % 64] := by
        simp [utf8EncodeChar, h1, h2]
      rw [he, List.cons_append, List.singleton_append,
        utf8Lossy_two _ _ bs (by omega) (by omega) (by rw [isCont_iff]; omega)]
      congr 1
      omega
    · by_cases h3 : c < 0x10000
      · have he : utf8EncodeChar c = [0xE0 + c / 4096, 0x80 + c / 64 % 64, 0x80 + c % 64] := by
          simp [utf8EncodeChar, h1, h2, h3]
        rw [he, List.cons_append, List.cons_append, List.singleton_append,
          utf8Lossy_three _ _ _ bs (by omega) (by omega) (by rw [cont2ok_iff]; omega)
            (by rw [isCont_iff]; omega)]
        congr 1
        omega
      · have he : utf8EncodeChar c
            = [0xF0 + c / 262144, 0x80 + c / 4096 % 64, 0x80 + c / 64 % 64, 0x80 + c % 64] := by
          simp [utf8EncodeChar, h1, h2, h3]
        rw [he, List.cons_append, List.cons_append, List.cons_append, List.singleton_append,
          utf8Lossy_four _ _ _ _ bs (by omega) (by omega) (by rw [cont2ok_iff]; omega)
            (by rw [isCont_iff]; omega) (by rw [isCont_iff]; omega)]
        congr 1
        omega

/-- A well-formed prefix is decoded unchanged and decoding continues after it:
the lossy decoder never damages the valid part of the input. -/
theorem utf8Lossy_encode_append (cs : Str) (bs : Bytes) (h : AllValid cs) :
    utf8Lossy (utf8Encode cs ++ bs) = cs ++ utf8Lossy bs := by
  induction cs with
  | nil => simp [utf8Encode]
  | cons c cs ih =>
    have hc : ValidCodepoint c := h c (List.mem_cons_self c cs)
    have hcs : AllValid cs := fun x hx => h x (List.mem_cons_of_mem c hx)
    rw [utf8Encode_cons, List.append_assoc, utf8Lossy_encodeChar c hc, ih hcs,
      List.cons_append]

/-- Well-formed UTF-8 input is decoded unchanged. -/
theorem utf8Lossy_encode (cs : Str) (h : AllValid cs) : utf8Lossy (utf8Encode cs) = cs := by
  have h2 := utf8Lossy_encode_append cs [] h
  rw [List.append_nil] at h2
  rw [h2, show utf8Lossy [] = ([] : Str) from rfl, List.append_nil]
theorem valid_two (b1 b2 : Nat) (h2 : ¬ b1 < 0xC2) (h3 : b1 < 0xE0)
    (hc : isCont b2 = true) : ValidCodepoint ((b1 - 0xC0) * 64 + (b2 - 0x80)) := by
  rw [isCont_iff] at hc
  unfold ValidCodepoint
  omega

theorem encodeChar_two (b1 b2 : Nat) (h2 : ¬ b1 < 0xC2) (h3 : b1 < 0xE0)
    (hc : isCont b2 = true) : utf8EncodeChar ((b1 - 0xC0) * 64 + (b2 - 0x80)) = [b1, b2] := by
  rw [isCont_iff] at hc
  unfold utf8EncodeChar
  rw [if_neg (by omega), if_pos (by omega)]
  simp only [List.cons.injEq, and_true]
  omega

theorem valid_three (b1 b2 b3 : Nat) (h3 : ¬ b1 < 0xE0) (h4 : b1 < 0xF0)
    (hc2 : cont2ok b1 b2 = true) (hc3 : isCont b3 = true) :
    ValidCodepoint ((b1 - 0xE0) * 4096 + (b2 - 0x80) * 64 + (b3 - 0x80)) := by
  rw [cont2ok_iff] at hc2
  rw [isCont_iff] at hc3
  unfold ValidCodepoint
  omega

theorem encodeChar_three (b1 b2 b3 : Nat) (h3 : ¬ b1 < 0xE0) (h4 : b1 < 0xF0)
    (hc2 : cont2ok b1 b2 = true) (hc3 : isCont b3 = true) :
    utf8EncodeChar ((b1 - 0xE0) * 4096 + (b2 - 0x80) * 64 + (b3 - 0x80)) = [b1, b2, b3] := by
  rw [cont2ok_iff] at hc2
  rw [isCont_iff] at hc3
  unfold utf8EncodeChar
  rw [if_neg (by omega), if_neg (by omega), if_pos (by omega)]
  simp only [List.cons.injEq, and_true]
  omega

theorem valid_four (b1 b2 b3 b4 : Nat) (h4 : ¬ b1 < 0xF0) (h5 : b1 < 0xF5)
    (hc2 : cont2ok b1 b2 = true) (hc3 : isCont b3 = true) (hc4 : isCont b4 = true) :
    ValidCodepoint ((b1 - 0xF0) * 262144 + (b2 - 0x80) * 4096 + (b3 - 0x80) * 64 + (b4 - 0x80)) := by
  rw [cont2ok_iff] at hc2
  rw [isCont_iff] at hc3
  rw [isCont_iff] at hc4
  unfold ValidCodepoint
  omega

theorem encodeChar_four (b1 b2 b3 b4 : Nat) (h4 : ¬ b1 < 0xF0) (h5 : b1 < 0xF5)
    (hc2 : cont2ok b1 b2 = true) (hc3 : isCont b3 = true) (hc4 : isCont b4 = true) :
    utf8EncodeChar ((b1 - 0xF0) * 262144 + (b2 - 0x80) * 4096 + (b3 - 0x80) * 64 + (b4 - 0x80))
      = [b1, b2, b3, b4] := by
  rw [cont2ok_iff] at hc2
  rw [isCont_iff] at hc3
  rw [isCont_iff] at hc4
  unfold utf8EncodeChar
  rw [if_neg (by omega), if_neg (by omega), if_neg (by omega)]
  simp only [List.cons.injEq, and_true]
  omega
/-- If the decoded output contains no replacement character, the input was
well-formed UTF-8: it is the encoding of the (all-valid) decoded output. -/
theorem utf8Lossy_no_replacement (bs : Bytes) (h : 0xFFFD ∉ utf8Lossy bs) :
    AllValid (utf8Lossy bs) ∧ utf8Encode (utf8Lossy bs) = bs := by
  induction bs using utf8Lossy.induct with
  | case1 =>
    exact ⟨fun c hc => absurd hc (List.not_mem_nil c), rfl⟩
  | case2 b rest hb ih =>
    rw [utf8Lossy_ascii b rest hb] at h ⊢
    obtain ⟨ihv, ihe⟩ := ih fun hm => h (List.mem_cons_of_mem _ hm)
    refine ⟨?_, ?_⟩
    · intro x hx
      rcases List.mem_cons.mp hx with rfl | hx'
      · exact ⟨by omega, by omega⟩
      · exact ihv x hx'
    · rw [utf8Encode_cons, ihe]
      have he : utf8EncodeChar b = [b] := by simp [utf8EncodeChar, hb]
      rw [he, List.singleton_append]
  | case3 b rest h1 h2 ih =>
    exfalso
    apply h
    rw [utf8Lossy.eq_def]
    simp [h1, h2]
  | case4 b h1 h2 h3 =>
    exfalso
    apply h
    rw [utf8Lossy.eq_def]
    simp [h1, h2, h3]
  | case5 b1 h1 h2 h3 b2 rest hc ih =>
    rw [utf8Lossy_two b1 b2 rest (by omega) h3 hc] at h ⊢
    obtain ⟨ihv, ihe⟩ := ih fun hm => h (List.mem_cons_of_mem _ hm)
    refine ⟨?_, ?_⟩
    · intro x hx
      rcases List.mem_cons.mp hx with rfl | hx'
      · exact valid_two b1 b2 h2 h3 hc
      · exact ihv x hx'
    · rw [utf8Encode_cons, ihe, encodeChar_two b1 b2 h2 h3 hc]
      rfl
  | case6 b1 h1 h2 h3 b2 rest hc ih =>
    exfalso
    apply h
    rw [utf8Lossy.eq_def]
    simp [h1, h2, h3, hc]
  | case7 b h1 h2 h3 h4 =>
    exfalso
    apply h
    rw [utf8Lossy.eq_def]
    simp [h1, h2, h3, h4]
  | case8 b1 h1 h2 h3 h4 b2 hc2 =>
    exfalso
    apply h
    rw [utf8Lossy.eq_def]
    simp [h1, h2, h3, h4, hc2]
  | case9 b1 h1 h2 h3 h4 b2 hc2 b3 rest hc3 ih =>
    rw [utf8Lossy_three b1 b2 b3 rest (by omega) h4 hc2 hc3] at h ⊢
    obtain ⟨ihv, ihe⟩ := ih fun hm => h (List.mem_cons_of_mem _ hm)
    refine ⟨?_, ?_⟩
    · intro x hx
      rcases List.mem_cons.mp hx with rfl | hx'
      · exact valid_three b1 b2 b3 h3 h4 hc2 hc3
      · exact ihv x hx'
    · rw [utf8Encode_cons, ihe, encodeChar_three b1 b2 b3 h3 h4 hc2 hc3]
      rfl
  | case10 b1 h1 h2 h3 h4 b2 hc2 b3 rest hc3 ih =>
    exfalso
    apply h
    rw [utf8Lossy.eq_def]
    simp [h1, h2, h3, h4, hc2, hc3]
  | case11 b1 h1 h2 h3 h4 b2 rest hc2 ih =>
    exfalso
    apply h
    rw [utf8Lossy.eq_def]
    simp [h1, h2, h3, h4, hc2]
  | case12 b h1 h2 h3 h4 h5 =>
    exfalso
    apply h
    rw [utf8Lossy.eq_def]
    simp [h1, h2, h3, h4, h5]
  | case13 b1 h1 h2 h3 h4 h5 b2 hc2 =>
    exfalso
    apply h
    rw [utf8Lossy.eq_def]
    simp [h1, h2, h3, h4, h5, hc2]
  | case14 b1 h1 h2 h3 h4 h5 b2 hc2 b3 hc3 =>
    exfalso
    apply h
    rw [utf8Lossy.eq_def]
    simp [h1, h2, h3, h4, h5, hc2, hc3]
  | case15 b1 h1 h2 h3 h4 h5 b2 hc2 b3 hc3 b4 rest hc4 ih =>
    rw [utf8Lossy_four b1 b2 b3 b4 rest (by omega) h5 hc2 hc3 hc4] at h ⊢
    obtain ⟨ihv, ihe⟩ := ih fun hm => h (List.mem_cons_of_mem _ hm)
    refine ⟨?_, ?_⟩
    · intro x hx
      rcases List.mem_cons.mp hx with rfl | hx'
      · exact valid_four b1 b2 b3 b4 h4 h5 hc2 hc3 hc4
      · exact ihv x hx'
    · rw [utf8Encode_cons, ihe, encodeChar_four b1 b2 b3 b4 h4 h5 hc2 hc3 hc4]
      rfl
  | case16 b1 h1 h2 h3 h4 h5 b2 hc2 b3 hc3 b4 rest hc4 ih =>
    exfalso
    apply h
    rw [utf8Lossy.eq_def]
    simp [h1, h2, h3, h4, h5, hc2, hc3, hc4]
  | case17 b1 h1 h2 h3 h4 h5 b2 hc2 b3 rest hc3 ih =>
    exfalso
    apply h
    rw [utf8Lossy.eq_def]
    simp [h1, h2, h3, h4, h5, hc2, hc3]
  | case18 b1 h1 h2 h3 h4 h5 b2 rest hc2 ih =>
    exfalso
    apply h
    rw [utf8Lossy.eq_def]
    simp [h1, h2, h3, h4, h5, hc2]
  | case19 b1 rest h1 h2 h3 h4 h5 ih =>
    exfalso
    apply h
    rw [utf8Lossy.eq_def]
    simp [h1, h2, h3, h4, h5]

/-! ### General serializer lemmas -/

/-- The spec's fixed lookup table, written from the spec's words:
0.9 to "HTTP/0.9", 1.0 to "HTTP/1.0", 1.1 to "HTTP/1.1", 2 to "HTTP/2",
3 to "HTTP/3". -/
def specVersionTable : http.Version → Str
  | .HTTP_09 => strLit "HTTP/0.9"
  | .HTTP_10 => strLit "HTTP/1.0"
  | .HTTP_11 => strLit "HTTP/1.1"
  | .HTTP_2 => strLit "HTTP/2"
  | .HTTP_3 => strLit "HTTP/3"

theorem parse_version_eq_table (p : HttpParser) :
    p.parse_version = some (specVersionTable p.version) := by
  cases hv : p.version <;> simp [HttpParser.parse_version, hv, specVersionTable]

theorem parse_Request_eq (r : http.Request) (v : Str)
    (hv : HttpParser.parse_version (.Request r) = some v) :
    HttpParser.parse (.Request r)
      = some (r.method ++ [32] ++ r.uri ++ [32] ++ v ++ crlf
          ++ HttpParser.parse_header (.Request r) ++ crlf ++ r.body) := by
  simp [HttpParser.parse, HttpParser.parse_request, hv]

theorem parse_Response_eq (r : http.Response) (v : Str)
    (hv : HttpParser.parse_version (.Response r) = some v) :
    HttpParser.parse (.Response r)
      = some (v ++ [32] ++ statusDisplay r.status ++ crlf
          ++ HttpParser.parse_header (.Response r) ++ crlf ++ r.body) := by
  simp [HttpParser.parse, HttpParser.parse_response, hv]

theorem parse_isSome (p : HttpParser) : (HttpParser.parse p).isSome = true := by
  cases p with
  | Request r =>
    rw [HttpParser.parse, HttpParser.parse_request, parse_version_eq_table]
    rfl
  | Response r =>
    rw [HttpParser.parse, HttpParser.parse_response, parse_version_eq_table]
    rfl

/-! ### The claims -/

/-- Claim C1: for every Request whose version renders, `parse` returns `Some`
of the request line `METHOD TARGET VERSION\r\n`, then the CRLF-joined header
lines, then `\r\n`, then the body; in particular, a GET of
"http://localhost/" at HTTP/1.1 with no headers and empty body serializes to
"GET http://localhost/ HTTP/1.1\r\n\r\n". -/
theorem claim_C1 :
    (∀ (r : http.Request) (v : Str), HttpParser.parse_version (.Request r) = some v →
        HttpParser.parse (.Request r)
          = some (r.method ++ [32] ++ r.uri ++ [32] ++ v ++ crlf
              ++ joinSep crlf (r.headers.map headerLine) ++ crlf ++ r.body)) ∧
      HttpParser.parse
          (.Request ⟨strLit "GET", strLit "http://localhost/", .HTTP_11, [], []⟩)
        = some (strLit "GET http://localhost/ HTTP/1.1\r\n\r\n") := by
  constructor
  · intro r v hv
    exact parse_Request_eq r v hv
  · decide

theorem claim_C1_witness :
    HttpParser.parse
        (.Request ⟨strLit "POST", strLit "/submit", .HTTP_10,
          [(strLit "Host", strLit "localhost")], strLit "data"⟩)
      = some (strLit "POST" ++ [32] ++ strLit "/submit" ++ [32] ++ strLit "HTTP/1.0" ++ crlf
          ++ joinSep crlf ([(strLit "Host", strLit "localhost")].map headerLine) ++ crlf
          ++ strLit "data") :=
  claim_C1.1 _ _ (by decide)

/-- Claim C2: for every Response whose version renders, `parse` returns `Some`
of the status line `VERSION STATUS\r\n`, then the CRLF-joined header lines,
then `\r\n`, then the body; in particular, a 200 ("OK") response at HTTP/1.1
with no headers and body "<h1>hello</h1>" serializes to
"HTTP/1.1 200 OK\r\n\r\n<h1>hello</h1>". -/
theorem claim_C2 :
    (∀ (r : http.Response) (v : Str), HttpParser.parse_version (.Response r) = some v →
        HttpParser.parse (.Response r)
          = some (v ++ [32] ++ statusDisplay r.status ++ crlf
              ++ joinSep crlf (r.headers.map headerLine) ++ crlf ++ r.body)) ∧
      HttpParser.parse (.Response ⟨.HTTP_11, 200, [], strLit "<h1>hello</h1>"⟩)
        = some (strLit "HTTP/1.1 200 OK\r\n\r\n<h1>hello</h1>") := by
  constructor
  · intro r v hv
    exact parse_Response_eq r v hv
  · decide

theorem claim_C2_witness :
    HttpParser.parse (.Response ⟨.HTTP_11, 404, [(strLit "Server", strLit "x")], strLit "gone"⟩)
      = some (strLit "HTTP/1.1" ++ [32] ++ statusDisplay 404 ++ crlf
          ++ joinSep crlf ([(strLit "Server", strLit "x")].map headerLine) ++ crlf
          ++ strLit "gone") :=
  claim_C2.1 _ _ (by decide)

/-- Claim C3: the serialized header block has exactly one line per input
header, formatted `name:decoded-value`, in input order, duplicates kept as
separate lines, the lines joined with CRLF. -/
theorem claim_C3 :
    (∀ p : HttpParser, HttpParser.parse_header p = joinSep crlf (p.headers.map headerLine)) ∧
    (∀ p : HttpParser, (p.headers.map headerLine).length = p.headers.length) ∧
    (∀ (k : Str) (v : Bytes), headerLine (k, v) = k ++ [58] ++ utf8Lossy v) ∧
      HttpParser.parse_header
          (.Request ⟨strLit "GET", strLit "/", .HTTP_11,
            [(strLit "A", strLit "1"), (strLit "A", strLit "2")], []⟩)
        = strLit "A:1\r\nA:2" := by
  refine ⟨fun p => rfl, fun p => List.length_map _ _, fun k v => rfl, by decide⟩

/-- Claim C4: the version token emitted in the first line is exactly the
value of the fixed lookup table 0.9→"HTTP/0.9", 1.0→"HTTP/1.0",
1.1→"HTTP/1.1", 2→"HTTP/2", 3→"HTTP/3", for requests and responses alike. -/
theorem claim_C4 :
    (∀ p : HttpParser, p.parse_version = some (specVersionTable p.version)) ∧
    specVersionTable .HTTP_09 = strLit "HTTP/0.9" ∧
    specVersionTable .HTTP_10 = strLit "HTTP/1.0" ∧
    specVersionTable .HTTP_11 = strLit "HTTP/1.1" ∧
    specVersionTable .HTTP_2 = strLit "HTTP/2" ∧
    specVersionTable .HTTP_3 = strLit "HTTP/3" ∧
    (∀ r : http.Request, ∃ rest,
        HttpParser.parse (.Request r)
          = some (r.method ++ [32] ++ r.uri ++ [32] ++ specVersionTable r.version
              ++ crlf ++ rest)) ∧
    (∀ r : http.Response, ∃ rest,
        HttpParser.parse (.Response r)
          = some (specVersionTable r.version ++ [32] ++ statusDisplay r.status
              ++ crlf ++ rest)) := by
  refine ⟨parse_version_eq_table, rfl, rfl, rfl, rfl, rfl, ?_, ?_⟩
  · intro r
    refine ⟨HttpParser.parse_header (.Request r) ++ crlf ++ r.body, ?_⟩
    rw [parse_Request_eq r (specVersionTable r.version) (parse_version_eq_table _)]
    simp [List.append_assoc]
  · intro r
    refine ⟨HttpParser.parse_header (.Response r) ++ crlf ++ r.body, ?_⟩
    rw [parse_Response_eq r (specVersionTable r.version) (parse_version_eq_table _)]
    simp [List.append_assoc]

/-- Claim C5 as stated — versions 2 and 3 make `serialize` return `None` —
is false: the code maps `HTTP_2` and `HTTP_3` to `Some("HTTP/2")` /
`Some("HTTP/3")` and serialization proceeds. Concretely, a GET of "/" at
version 2 serializes to `Some "GET / HTTP/2\r\n\r\n"`, not `None`. -/
theorem claim_C5_counterexample :
    HttpParser.version (.Request ⟨strLit "GET", strLit "/", .HTTP_2, [], []⟩)
        = .HTTP_2 ∧
      HttpParser.parse (.Request ⟨strLit "GET", strLit "/", .HTTP_2, [], []⟩)
        = some (strLit "GET / HTTP/2\r\n\r\n") ∧
      HttpParser.parse (.Request ⟨strLit "GET", strLit "/", .HTTP_2, [], []⟩)
        ≠ none := by
  decide

/-- Claim C5 amended: for every message whose HttpVersion is 2 or 3,
`serialize` returns `Some`, rendering the version token as "HTTP/2" /
"HTTP/3"; those versions are no failure case. -/
theorem claim_C5 (p : HttpParser)
    (_h : p.version = .HTTP_2 ∨ p.version = .HTTP_3) :
    (HttpParser.parse p).isSome = true ∧
      (p.version = .HTTP_2 → p.parse_version = some (strLit "HTTP/2")) ∧
      (p.version = .HTTP_3 → p.parse_version = some (strLit "HTTP/3")) := by
  refine ⟨parse_isSome p, ?_, ?_⟩ <;> intro hv <;>
    simp [parse_version_eq_table, hv, specVersionTable]

theorem claim_C5_witness :
    (HttpParser.parse (.Response ⟨.HTTP_3, 200, [], []⟩)).isSome = true ∧
      (HttpParser.Response ⟨.HTTP_3, 200, [], []⟩).parse_version
        = some (strLit "HTTP/3") := by
  have h := claim_C5 (.Response ⟨.HTTP_3, 200, [], []⟩) (Or.inr (by decide))
  exact ⟨h.1, h.2.2 (by decide)⟩

/-- Claim C6: `parse` returns `None` only when version rendering fails, and
version rendering never fails — every message (Request or Response, any
headers) gets `Some`. -/
theorem claim_C6 :
    ∀ p : HttpParser, p.parse_version ≠ none ∧ HttpParser.parse p ≠ none := by
  intro p
  constructor
  · rw [parse_version_eq_table]
    exact Option.some_ne_none _
  · have h := parse_isSome p
    exact Option.isSome_iff_ne_none.mp h

/-- Claim C7: serialization never fails on any header value bytes; a
well-formed prefix of a header value is decoded unchanged (and decoding
continues behind it), and a value that is not well-formed UTF-8 always
produces the replacement marker U+FFFD in the decoded output. -/
theorem claim_C7 :
    (∀ r : http.Request, HttpParser.parse (.Request r) ≠ none) ∧
    (∀ r : http.Response, HttpParser.parse (.Response r) ≠ none) ∧
    (∀ (cs : Str) (bs : Bytes), AllValid cs →
        utf8Lossy (utf8Encode cs ++ bs) = cs ++ utf8Lossy bs) ∧
    (∀ bs : Bytes, (¬ ∃ cs, AllValid cs ∧ utf8Encode cs = bs) →
        0xFFFD ∈ utf8Lossy bs) := by
  refine ⟨?_, ?_, utf8Lossy_encode_append, ?_⟩
  · intro r
    exact Option.isSome_iff_ne_none.mp (parse_isSome _)
  · intro r
    exact Option.isSome_iff_ne_none.mp (parse_isSome _)
  · intro bs hne
    by_contra hmem
    obtain ⟨hv, he⟩ := utf8Lossy_no_replacement bs hmem
    exact hne ⟨utf8Lossy bs, hv, he⟩

theorem claim_C7_witness :
    HttpParser.parse
        (.Request ⟨strLit "GET", strLit "/", .HTTP_11, [(strLit "X", [0xFF, 0xC0])], []⟩)
      ≠ none ∧
    utf8Lossy (utf8Encode [104, 0x20AC] ++ [0xFF, 65]) = [104, 0x20AC] ++ utf8Lossy [0xFF, 65] ∧
    0xFFFD ∈ utf8Lossy [0x68, 0xFF] := by
  refine ⟨claim_C7.1 _, claim_C7.2.2.1 [104, 0x20AC] [0xFF, 65] (by decide),
    claim_C7.2.2.2 [0x68, 0xFF] ?_⟩
  rintro ⟨cs, hval, henc⟩
  have h1 : utf8Lossy (utf8Encode cs ++ []) = cs ++ utf8Lossy [] :=
    claim_C7.2.2.1 cs [] hval
  rw [List.append_nil, henc, show utf8Lossy [] = ([] : Str) from rfl, List.append_nil] at h1
  rw [show utf8Lossy [0x68, 0xFF] = [0x68, 0xFFFD] from by decide] at h1
  rw [← h1] at henc
  exact absurd henc (by decide)

/-- Claim C8: the header block and the body are joined by a single CRLF (one
blank-line CRLF after the block of CRLF-joined header lines), and with zero
headers the block is empty, giving `METHOD TARGET VERSION\r\n\r\nBODY`. -/
theorem claim_C8 :
    (∀ (r : http.Request) (v : Str), HttpParser.parse_version (.Request r) = some v →
        HttpParser.parse (.Request r)
          = some ((r.method ++ [32] ++ r.uri ++ [32] ++ v ++ crlf)
              ++ (HttpParser.parse_header (.Request r) ++ (crlf ++ r.body)))) ∧
    (∀ (r : http.Response) (v : Str), HttpParser.parse_version (.Response r) = some v →
        HttpParser.parse (.Response r)
          = some ((v ++ [32] ++ statusDisplay r.status ++ crlf)
              ++ (HttpParser.parse_header (.Response r) ++ (crlf ++ r.body)))) ∧
    (∀ (r : http.Request) (v : Str), HttpParser.parse_version (.Request r) = some v →
        r.headers = [] →
        HttpParser.parse (.Request r)
          = some (r.method ++ [32] ++ r.uri ++ [32] ++ v ++ crlf ++ crlf ++ r.body)) := by
  refine ⟨?_, ?_, ?_⟩
  · intro r v hv
    rw [parse_Request_eq r v hv]
    simp [List.append_assoc]
  · intro r v hv
    rw [parse_Response_eq r v hv]
    simp [List.append_assoc]
  · intro r v hv hempty
    rw [parse_Request_eq r v hv]
    have hh : HttpParser.parse_header (.Request r) = [] := by
      simp [HttpParser.parse_header, HttpParser.headers, hempty, joinSep]
    rw [hh]
    simp

theorem claim_C8_witness :
    HttpParser.parse (.Request ⟨strLit "GET", strLit "/i", .HTTP_09, [], strLit "b"⟩)
      = some (strLit "GET" ++ [32] ++ strLit "/i" ++ [32] ++ strLit "HTTP/0.9"
          ++ crlf ++ crlf ++ strLit "b") :=
  claim_C8.2.2 _ _ (by decide) (by decide)

/-- Claim C9: `parse` is a pure, deterministic function: two calls on the
same message yield identical output. -/
theorem claim_C9 :
    ∀ p q : HttpParser, p = q → HttpParser.parse p = HttpParser.parse q := by
  intro p q h
  rw [h]

theorem claim_C9_witness :
    HttpParser.parse (.Response ⟨.HTTP_2, 200, [], []⟩)
      = HttpParser.parse (.Response ⟨.HTTP_2, 200, [], []⟩) :=
  claim_C9 _ _ rfl

/-- Claim C10: the status line of every response carries exactly the canonical
rendering of its status code — decimal code, space, canonical reason phrase
(e.g. "200 OK") — determined by the status code alone; the Response carries no
reason-phrase field a caller could customize or omit. -/
theorem claim_C10 :
    (∀ r : http.Response, ∃ rest,
        HttpParser.parse (.Response r)
          = some (specVersionTable r.version ++ [32] ++ statusDisplay r.status
              ++ crlf ++ rest)) ∧
    statusDisplay 200 = strLit "200 OK" ∧
    (∀ code : Nat, statusDisplay code
        = strLit (toString code) ++ [32]
          ++ strLit ((canonicalReason code).getD "<unknown status code>")) := by
  refine ⟨?_, by decide, fun code => rfl⟩
  intro r
  refine ⟨HttpParser.parse_header (.Response r) ++ crlf ++ r.body, ?_⟩
  rw [parse_Response_eq r (specVersionTable r.version) (parse_version_eq_table _)]
  simp [List.append_assoc]
